import Mathlib

/-!
Verification of the `texlint` repository (file `src/main.py`) against its
natural-language specification.

The program has two components:

* `lint_table` — a structural lint engine over dictionary-shaped ("canonical
  record") data, returning a list of warning strings;
* `convert_node_to_dict` — a converter from external parser syntax nodes
  (`pylatexenc` nodes) to the canonical record form.

We shallowly embed the Python code.  Python runtime values that can flow
through `lint_table` are modelled by `PyVal`; Python exceptions
(`AttributeError`, `IndexError`, `KeyError`, `TypeError`) are modelled by the
`Except PyErr` monad.  Every Python primitive the source uses (`dict.get`,
subscripting, `in`, iteration, `==` against a string or tuple literal) is
embedded with its actual Python semantics on every `PyVal` shape.
-/

namespace Texlint

/-- A Python runtime value, as far as the linted data can contain one:
`None`, a string, a tuple of two strings (the delimiters tuples the program
uses), a list, or a string-keyed dict (insertion-ordered key/value pairs,
keys unique by construction of the inputs we consider). -/
inductive PyVal where
  | none
  | str (s : String)
  | pair (a b : String)
  | list (xs : List PyVal)
  | dict (kvs : List (String × PyVal))

/-- The Python exceptions the embedded code can raise. -/
inductive PyErr where
  | attributeError
  | indexError
  | keyError
  | typeError
  deriving DecidableEq

/-- Embeds `d.get(k, default)`: defaulted key lookup.  Only dicts have a `get`
method; on any other value Python raises `AttributeError`. -/
def pyGet (v : PyVal) (k : String) (default : PyVal) : Except PyErr PyVal :=
  match v with
  | .dict kvs => .ok ((kvs.lookup k).getD default)
  | _ => .error .attributeError

/-- Embeds `v[k]` for a string key `k`: plain subscription.  On a dict this is key
lookup (raising `KeyError` when absent); strings, lists and tuples require
integer indices (`TypeError`); `None` is not subscriptable (`TypeError`). -/
def pyGetItem (v : PyVal) (k : String) : Except PyErr PyVal :=
  match v with
  | .dict kvs =>
    match kvs.lookup k with
    | some w => .ok w
    | Option.none => .error .keyError
  | _ => .error .typeError

/-- Embeds `v[0]`: subscription with the integer index 0.  Lists and strings raise
`IndexError` when empty; a two-tuple yields its first component; a dict looks
up the key `0` (our dicts are string-keyed, so `KeyError`); `None` raises
`TypeError`. -/
def pySub0 (v : PyVal) : Except PyErr PyVal :=
  match v with
  | .list [] => .error .indexError
  | .list (x :: _) => .ok x
  | .str s =>
    match s.data with
    | [] => .error .indexError
    | c :: _ => .ok (.str (String.mk [c]))
  | .pair a _ => .ok (.str a)
  | .dict _ => .error .keyError
  | .none => .error .typeError

/-- Python `v == "lit"` where the right-hand side is a string literal:
true exactly when `v` is an equal string; values of any other shape compare
unequal without error. -/
def pyEqStr (v : PyVal) (lit : String) : Bool :=
  match v with
  | .str s => s == lit
  | _ => false

/-- Python `v == (a, b)` where the right-hand side is a tuple of two string
literals: true exactly when `v` is an equal two-tuple; values of any other
shape (including the list `[a, b]`) compare unequal without error. -/
def pyEqPair (v : PyVal) (a b : String) : Bool :=
  match v with
  | .pair x y => x == a && y == b
  | _ => false

/-- Contiguous-substring test on character lists, as in Python's
`needle in haystack` for strings. -/
def hasInfixCL (needle : List Char) : List Char → Bool
  | [] => needle.isEmpty
  | c :: rest => needle.isPrefixOf (c :: rest) || hasInfixCL needle rest

/-- Embeds `needle in hay` for a string literal `needle`: substring test on strings,
membership test on lists and tuples (element equality with the string) and on
dicts (key membership); `TypeError` on `None`. -/
def pyInStr (needle : String) (hay : PyVal) : Except PyErr Bool :=
  match hay with
  | .str s => .ok (hasInfixCL needle.data s.data)
  | .list xs => .ok (xs.any fun v => pyEqStr v needle)
  | .pair a b => .ok (a == needle || b == needle)
  | .dict kvs => .ok (kvs.any fun kv => kv.1 == needle)
  | .none => .error .typeError

/-- Embeds `for x in v`: iteration.  Lists yield elements, strings one-character
strings, tuples their components, dicts their keys; `None` is not iterable. -/
def pyIter (v : PyVal) : Except PyErr (List PyVal) :=
  match v with
  | .list xs => .ok xs
  | .str s => .ok (s.data.map fun c => .str (String.mk [c]))
  | .pair a b => .ok [.str a, .str b]
  | .dict kvs => .ok (kvs.map fun kv => .str kv.1)
  | .none => .error .typeError

/-- The loop pattern `found = acc; for x in xs: if f(x): found = True`.
There is no `break` in the source, so every element is visited (and any
exception raised by a later element still propagates). -/
def pyAnyLoop (f : PyVal → Except PyErr Bool) : List PyVal → Bool → Except PyErr Bool
  | [], acc => .ok acc
  | c :: cs, acc => do
      let b ← f c
      pyAnyLoop f cs (acc || b)

/-- The per-child condition of lint check 3 (centering), with Python's
short-circuit `and`:
`child.get("type") == "GroupNode" and child.get("delimiters") == ("\x5cbegin{center}", "\x5cend{center}")`. -/
def isCenterGroup (child : PyVal) : Except PyErr Bool := do
  let t ← pyGet child "type" PyVal.none
  if pyEqStr t "GroupNode" then do
    let d ← pyGet child "delimiters" PyVal.none
    pure (pyEqPair d "\\begin{center}" "\\end{center}")
  else pure false

/-- The per-child condition of lint check 4 (caption), with Python's
short-circuit `and`:
`child.get("type") == "MacroNode" and child.get("macroname") == "caption"`. -/
def isCaptionMacro (child : PyVal) : Except PyErr Bool := do
  let t ← pyGet child "type" PyVal.none
  if pyEqStr t "MacroNode" then do
    let m ← pyGet child "macroname" PyVal.none
    pure (pyEqStr m "caption")
  else pure false

/-- Lint check 2 of `lint_table` (positioning directive), verbatim from the
source:

`if table_data.get("args", [{}])[0].get("type") == "CharsNode" and "[H]" not in table_data["args"][0].get("content", ""):`

with Python's evaluation order and short-circuit `and`.  Returns the list of
warnings this check appends. -/
def lintCheck2 (table_data : PyVal) : Except PyErr (List String) := do
  let a ← pyGet table_data "args" (.list [.dict []])
  let a0 ← pySub0 a
  let t ← pyGet a0 "type" PyVal.none
  let missing ←
    if pyEqStr t "CharsNode" then do
      let av ← pyGetItem table_data "args"
      let av0 ← pySub0 av
      let content ← pyGet av0 "content" (.str "")
      let isin ← pyInStr "[H]" content
      pure (!isin)
    else pure false
  pure (if missing then ["Table does not have a [H] positioning directive."] else [])

/-- Lint checks 3 and 4 of `lint_table` (centering and caption), verbatim
from the source: two full passes over `table_data.get("children", [])`, each
accumulating a `found` flag with no break, followed by the conditional
appends.  Returns the list of warnings these checks append, in order. -/
def lintCheck34 (table_data : PyVal) : Except PyErr (List String) := do
  let cv ← pyGet table_data "children" (.list [])
  let cs ← pyIter cv
  let centering_found ← pyAnyLoop isCenterGroup cs false
  let cv2 ← pyGet table_data "children" (.list [])
  let cs2 ← pyIter cv2
  let caption_found ← pyAnyLoop isCaptionMacro cs2 false
  pure ((if centering_found then [] else
          ["Table is not centered using \\begin{center} and \\end{center}."]) ++
        (if caption_found then [] else
          ["Table does not have a caption using \\caption."]))

/-- The lint engine `lint_table` from `src/main.py`.  Check 1 (the
environment gate) is

`if table_data.get("type") != "GroupNode" or table_data.get("delimiters") != ("\x5cbegin{table}", "\x5cend{table}"):`

with Python's short-circuit `or`; on failure the single warning is returned
immediately.  Otherwise checks 2, 3 and 4 run and their warnings are
accumulated in that order.  Python exceptions are modelled by the
`Except PyErr` monad. -/
def lint_table (table_data : PyVal) : Except PyErr (List String) := do
  let t ← pyGet table_data "type" PyVal.none
  let gateBad ←
    if !pyEqStr t "GroupNode" then pure true
    else do
      let d ← pyGet table_data "delimiters" PyVal.none
      pure (!pyEqPair d "\\begin{table}" "\\end{table}")
  if gateBad then
    pure ["Table environment not detected."]
  else do
    let w2 ← lintCheck2 table_data
    let w34 ← lintCheck34 table_data
    pure (w2 ++ w34)

/-- Whether a successful lint run reports the warning `w`; an exception
reports nothing. -/
def lintHasWarning (table_data : PyVal) (w : String) : Bool :=
  match lint_table table_data with
  | .ok ws => ws.contains w
  | .error _ => false

/-! ## The Canonical Tree Builder: `convert_node_to_dict`

The builder converts `pylatexenc` syntax nodes to `PyVal` records.  Its one
non-structural step is the escaping of `Chars` content,
`repr(node.chars)[1:-1]`, which we embed following CPython's `repr` for
strings: quote selection, backslash/quote escaping, `\t`/`\n`/`\r`, and
`\xNN`/`\uNNNN`/`\UNNNNNNNN` hex escapes for non-printable characters.
CPython decides printability of code points at and above `0x7f` from its
Unicode tables; we take that table as a parameter `printable : Char → Bool`
(every property proved below holds for every choice of this table, and ASCII
behaviour, which does not consult the table, is embedded exactly). -/

/-- The single quote character, `chr(39)`. -/
def squote : Char := Char.ofNat 39

/-- The double quote character, `chr(34)`. -/
def dquote : Char := Char.ofNat 34

/-- Lowercase hexadecimal digit for `n % 16`, as CPython prints in
`\xNN` escapes. -/
def hexDigitChar (n : Nat) : Char :=
  if n % 16 < 10 then Char.ofNat (48 + n % 16) else Char.ofNat (87 + n % 16)

/-- Two-digit lowercase hex rendering of `n < 0x100`. -/
def hex2 (n : Nat) : List Char := [hexDigitChar (n / 16), hexDigitChar n]

/-- Four-digit lowercase hex rendering of `n < 0x10000`. -/
def hex4 (n : Nat) : List Char :=
  [hexDigitChar (n / 4096), hexDigitChar (n / 256), hexDigitChar (n / 16), hexDigitChar n]

/-- Eight-digit lowercase hex rendering of `n < 0x100000000`. -/
def hex8 (n : Nat) : List Char :=
  [hexDigitChar (n / 268435456), hexDigitChar (n / 16777216),
   hexDigitChar (n / 1048576), hexDigitChar (n / 65536)] ++ hex4 n

/-- CPython's `repr` escaping of one character of a string, given the chosen
surrounding quote `q` and the printability table for non-ASCII code points:
backslash and the quote character are backslash-escaped; tab, newline and
carriage return become `\t`, `\n`, `\r`; other C0 controls and `DEL` become
`\xNN`; remaining ASCII is kept raw; non-ASCII is kept raw when printable and
otherwise becomes `\xNN`, `\uNNNN` or `\UNNNNNNNN` by code-point size. -/
def escChar (printable : Char → Bool) (q : Char) (c : Char) : List Char :=
  if c = '\\' ∨ c = q then ['\\', c]
  else if c = '\t' then ['\\', 't']
  else if c = '\n' then ['\\', 'n']
  else if c = '\r' then ['\\', 'r']
  else if c.toNat < 32 ∨ c.toNat = 127 then '\\' :: 'x' :: hex2 c.toNat
  else if c.toNat < 127 then [c]
  else if printable c then [c]
  else if c.toNat < 256 then '\\' :: 'x' :: hex2 c.toNat
  else if c.toNat < 65536 then '\\' :: 'u' :: hex4 c.toNat
  else '\\' :: 'U' :: hex8 c.toNat

/-- Character-wise `escChar` over a character list. -/
def escList (printable : Char → Bool) (q : Char) : List Char → List Char
  | [] => []
  | c :: cs => escChar printable q c ++ escList printable q cs

/-- CPython's quote selection for `repr` of a string: a single quote, unless
the string contains a single quote and no double quote. -/
def pyQuoteChar (s : String) : Char :=
  if s.data.contains squote && !s.data.contains dquote then dquote else squote

/-- Embeds `repr(s)[1:-1]` from the source: the escaped body of CPython's
`repr` of the string `s`, with the surrounding quotes stripped.  This is the
escaping transform the builder applies to `Chars` content. -/
def reprStripped (printable : Char → Bool) (s : String) : String :=
  String.mk (escList printable (pyQuoteChar s) s.data)

/-- Embeds `repr(s)`: the escaped body surrounded by the chosen quotes. -/
def reprStr (printable : Char → Bool) (s : String) : String :=
  String.mk (pyQuoteChar s :: (escList printable (pyQuoteChar s) s.data ++ [pyQuoteChar s]))

/-- Embeds `str((a, b))` for a tuple of two strings, as applied by the source
to `node.delimiters`: parenthesised, comma-separated `repr`s of the
components. -/
def strOfStrPair (printable : Char → Bool) (a b : String) : String :=
  "(" ++ reprStr printable a ++ ", " ++ reprStr printable b ++ ")"

/-- An external `pylatexenc` syntax node, as far as `convert_node_to_dict`
observes it.  `nodeargd` is the optional argument descriptor (`node.nodeargd`,
whose `argnlist` may hold `None` entries for omitted optional arguments);
`delimiters` is the group's delimiter tuple.  `otherNode ty` stands for a
node of any runtime type outside the seven handled classes, carrying the
text `str(type(node))` renders as. -/
inductive LatexNode where
  | macroNode (macroname : String) (nodeargd : Option (List (Option LatexNode)))
  | groupNode (delimiters : String × String) (nodelist : List LatexNode)
  | charsNode (chars : String)
  | commentNode (comment : String)
  | environmentNode (environmentname : String) (nodeargd : Option (List (Option LatexNode)))
      (nodelist : List LatexNode)
  | specialsNode (specials_chars : String) (nodeargd : Option (List (Option LatexNode)))
  | mathNode (nodelist : List LatexNode)
  | otherNode (typename : String)

mutual

/-- Embeds `convert_node_to_dict(node)` for a non-`None` node, dispatching on
the runtime class exactly as the chain of `isinstance` tests does.  Reading
`node.nodeargd.argnlist` when `node.nodeargd` is `None` raises
`AttributeError` (only `LatexSpecialsNode` guards against it); that is the
only failure.  Group delimiters are serialized as `str(node.delimiters)`,
`Chars` content as `repr(node.chars)[1:-1]` (a bare string, not a record),
and an unrecognized node as a one-key record fusing the label
`Unknown;str-of-type` into the `type` field. -/
def convertNode (printable : Char → Bool) : LatexNode → Except PyErr PyVal
  | .macroNode name nodeargd =>
    match nodeargd with
    | Option.none => .error .attributeError
    | some argnlist => do
      let cargs ← convertOptList printable argnlist
      pure (.dict [("type", .str "MacroNode"), ("macroname", .str name),
                   ("args", .list cargs)])
  | .groupNode delims nodelist => do
      let cs ← convertList printable nodelist
      pure (.dict [("type", .str "GroupNode"),
                   ("delimiters", .str (strOfStrPair printable delims.1 delims.2)),
                   ("children", .list cs)])
  | .charsNode chars => pure (.str (reprStripped printable chars))
  | .commentNode comment =>
      pure (.dict [("type", .str "CommentNode"), ("comment", .str comment)])
  | .environmentNode name nodeargd nodelist =>
    match nodeargd with
    | Option.none => .error .attributeError
    | some argnlist => do
      let cargs ← convertOptList printable argnlist
      let cs ← convertList printable nodelist
      pure (.dict [("type", .str "EnvironmentNode"), ("environmentname", .str name),
                   ("args", .list cargs), ("children", .list cs)])
  | .specialsNode sc nodeargd =>
    match nodeargd with
    | Option.none =>
        pure (.dict [("type", .str "SpecialsNode"), ("specials", .str sc),
                     ("args", .list [])])
    | some argnlist => do
      let cargs ← convertOptList printable argnlist
      pure (.dict [("type", .str "SpecialsNode"), ("specials", .str sc),
                   ("args", .list cargs)])
  | .mathNode nodelist => do
      let cs ← convertList printable nodelist
      pure (.dict [("type", .str "MathNode"), ("nodelist", .list cs)])
  | .otherNode typename => pure (.dict [("type", .str ("Unknown;" ++ typename))])

/-- Embeds `convert_node_to_dict`: `None` input maps to `None` output (the
first guard in the source); otherwise dispatch on the node class. -/
def convert_node_to_dict (printable : Char → Bool) :
    Option LatexNode → Except PyErr PyVal
  | Option.none => pure PyVal.none
  | some n => convertNode printable n

/-- Conversion of an `argnlist` (whose entries may be `None`), in order, as
the list comprehensions over `node.nodeargd.argnlist` do. -/
def convertOptList (printable : Char → Bool) :
    List (Option LatexNode) → Except PyErr (List PyVal)
  | [] => pure []
  | a :: rest => do
      let v ← convert_node_to_dict printable a
      let vs ← convertOptList printable rest
      pure (v :: vs)

/-- Conversion of a `nodelist`, in order, as the list comprehensions over
`node.nodelist` do. -/
def convertList (printable : Char → Bool) :
    List LatexNode → Except PyErr (List PyVal)
  | [] => pure []
  | n :: rest => do
      let v ← convertNode printable n
      let vs ← convertList printable rest
      pure (v :: vs)

end

/-! ## Decoder for the escape scheme

The spec's round-trip property asks that the escaping transform applied to
`Chars` content be exactly invertible.  The inverse is the standard
backslash-escape decoder: a backslash starts an escape (`\\`, `\'`, `\"`,
`\t`, `\n`, `\r`, `\xNN`, `\uNNNN`, `\UNNNNNNNN`); every other character
stands for itself. -/

/-- Numeric value of a lowercase hexadecimal digit character. -/
def hexVal (c : Char) : Nat :=
  if c.toNat ≤ 57 then c.toNat - 48 else c.toNat - 87

/-- Decodes the single escape whose backslash has just been consumed:
returns the decoded characters together with the undecoded remainder of the
input.  A trailing, truncated or unrecognized escape keeps its characters
verbatim (such escapes are never produced by the encoder). -/
def decodeEscAt : List Char → List Char × List Char
  | [] => (['\\'], [])
  | e :: r =>
    if e = '\\' then (['\\'], r)
    else if e = 't' then (['\t'], r)
    else if e = 'n' then (['\n'], r)
    else if e = 'r' then (['\r'], r)
    else if e = squote then ([squote], r)
    else if e = dquote then ([dquote], r)
    else if e = 'x' then
      match r with
      | a :: b :: r2 => ([Char.ofNat (16 * hexVal a + hexVal b)], r2)
      | _ => ('\\' :: e :: r, [])
    else if e = 'u' then
      match r with
      | a :: b :: c2 :: d :: r2 =>
          ([Char.ofNat (4096 * hexVal a + 256 * hexVal b + 16 * hexVal c2 + hexVal d)], r2)
      | _ => ('\\' :: e :: r, [])
    else if e = 'U' then
      match r with
      | a :: b :: c2 :: d :: a2 :: b2 :: c3 :: d2 :: r2 =>
          ([Char.ofNat (268435456 * hexVal a + 16777216 * hexVal b +
              1048576 * hexVal c2 + 65536 * hexVal d + 4096 * hexVal a2 +
              256 * hexVal b2 + 16 * hexVal c3 + hexVal d2)], r2)
      | _ => ('\\' :: e :: r, [])
    else (['\\', e], r)

/-- Backslash-escape decoder on character lists, inverse to the escaping the
builder applies to `Chars` content: a backslash hands over to `decodeEscAt`;
every other character stands for itself. -/
def decodeEsc : List Char → List Char
  | [] => []
  | c :: rest =>
    if c = '\\' then
      (decodeEscAt rest).1 ++ decodeEsc (decodeEscAt rest).2
    else c :: decodeEsc rest
  termination_by l => l.length
  decreasing_by
    all_goals simp_wf
    all_goals rename_i tl _h
    all_goals
      (have hlen : (decodeEscAt tl).2.length ≤ tl.length := by
        unfold decodeEscAt
        repeat' split
        all_goals simp_all
        all_goals omega
       omega)

/-- String form of the decoder. -/
def decodeEscString (s : String) : String := String.mk (decodeEsc s.data)

/-! ## Auxiliary predicates and sample inputs used by the statements -/

/-- A concrete instance of CPython's printability table for code points at
and above `0x80`, used wherever a closed statement needs one (all
quantified statements hold for every table). -/
def printableDefault : Char → Bool := fun c => 160 ≤ c.toNat

mutual

/-- Well-formedness of an external syntax node per §4.1 of the spec: every
`Macro` and `Environment` node carries an argument descriptor (`nodeargd`
present); `Specials` may omit it. -/
def wfNode : LatexNode → Bool
  | .macroNode _ nodeargd =>
    match nodeargd with
    | Option.none => false
    | some l => wfOptList l
  | .groupNode _ ns => wfList ns
  | .charsNode _ => true
  | .commentNode _ => true
  | .environmentNode _ nodeargd ns =>
    (match nodeargd with
     | Option.none => false
     | some l => wfOptList l) && wfList ns
  | .specialsNode _ nodeargd =>
    match nodeargd with
    | Option.none => true
    | some l => wfOptList l
  | .mathNode ns => wfList ns
  | .otherNode _ => true

/-- Well-formedness of an optional node. -/
def wfOpt : Option LatexNode → Bool
  | Option.none => true
  | some n => wfNode n

/-- Well-formedness of an `argnlist`. -/
def wfOptList : List (Option LatexNode) → Bool
  | [] => true
  | a :: rest => wfOpt a && wfOptList rest

/-- Well-formedness of a `nodelist`. -/
def wfList : List LatexNode → Bool
  | [] => true
  | n :: rest => wfNode n && wfList rest

end

/-- Whether a `type` field value is one of the six record tags the builder
emits, or an `Unknown;`-labelled tag.  Together with the bare-string and
null forms these are exactly the eight §3 variants. -/
def goodTag (t : PyVal) : Bool :=
  match t with
  | .str s => s == "MacroNode" || s == "GroupNode" || s == "CommentNode" ||
      s == "EnvironmentNode" || s == "SpecialsNode" || s == "MathNode" ||
      "Unknown;".data.isPrefixOf s.data
  | _ => false

mutual

/-- Whether a serialized value is shaped like (a tree of) the eight §3
variants: null (absent child), a bare string (`Chars`), or a record whose
`type` tag is recognized and whose fields are strings or lists of such
values. -/
def goodNode : PyVal → Bool
  | .none => true
  | .str _ => true
  | .pair _ _ => false
  | .list _ => false
  | .dict kvs => goodTag ((kvs.lookup "type").getD PyVal.none) && goodFields kvs

/-- Field check for `goodNode`. -/
def goodFields : List (String × PyVal) → Bool
  | [] => true
  | (_, v) :: rest => goodField v && goodFields rest

/-- A record field is a string or a list of serialized nodes. -/
def goodField : PyVal → Bool
  | .str _ => true
  | .list xs => goodNodes xs
  | _ => false

/-- List form of `goodNode`. -/
def goodNodes : List PyVal → Bool
  | [] => true
  | v :: vs => goodNode v && goodNodes vs

end

/-- Whether the conversion succeeded with a well-shaped value. -/
def goodE (e : Except PyErr PyVal) : Bool :=
  match e with
  | .ok v => goodNode v
  | .error _ => false

/-- Whether a list conversion succeeded with well-shaped values. -/
def goodListE (e : Except PyErr (List PyVal)) : Bool :=
  match e with
  | .ok vs => goodNodes vs
  | .error _ => false

/-- The keys of a record, in insertion order; `none` for a non-record. -/
def dictKeys : PyVal → Option (List String)
  | .dict kvs => some (kvs.map fun kv => kv.1)
  | _ => Option.none

/-- The key list `convert_node_to_dict` actually produces for each node
class (read off the dict literals in the source); a `Chars` node produces a
bare string, not a record. -/
def expectedKeys : LatexNode → Option (List String)
  | .macroNode .. => some ["type", "macroname", "args"]
  | .groupNode .. => some ["type", "delimiters", "children"]
  | .charsNode .. => Option.none
  | .commentNode .. => some ["type", "comment"]
  | .environmentNode .. => some ["type", "environmentname", "args", "children"]
  | .specialsNode .. => some ["type", "specials", "args"]
  | .mathNode .. => some ["type", "nodelist"]
  | .otherNode .. => some ["type"]

/-- Whether a value is a bare string. -/
def isStr : PyVal → Bool
  | .str _ => true
  | _ => false

/-- Whether a syntax node is a `Chars` node. -/
def isCharsNodeL : LatexNode → Bool
  | .charsNode _ => true
  | _ => false

/-- Whether a value is a dict. -/
def isDict : PyVal → Bool
  | .dict _ => true
  | _ => false

/-- Pure form of the check-3 per-child condition, total on dicts. -/
def isCenterGroupB (v : PyVal) : Bool :=
  match v with
  | .dict kvs => pyEqStr ((kvs.lookup "type").getD PyVal.none) "GroupNode" &&
      pyEqPair ((kvs.lookup "delimiters").getD PyVal.none) "\\begin{center}" "\\end{center}"
  | _ => false

/-- Pure form of the check-4 per-child condition, total on dicts. -/
def isCaptionMacroB (v : PyVal) : Bool :=
  match v with
  | .dict kvs => pyEqStr ((kvs.lookup "type").getD PyVal.none) "MacroNode" &&
      pyEqStr ((kvs.lookup "macroname").getD PyVal.none) "caption"
  | _ => false

/-- The canonical record for an empty centering group, as in the spec's
end-to-end examples. -/
def centerGroupRec : PyVal :=
  .dict [("type", .str "GroupNode"),
         ("delimiters", .pair "\\begin{center}" "\\end{center}"),
         ("children", .list [])]

/-- The canonical record for a caption macro with a textual argument, as in
the spec's end-to-end examples. -/
def captionMacroRec : PyVal :=
  .dict [("type", .str "MacroNode"), ("macroname", .str "caption"),
         ("args", .list [.dict [("type", .str "CharsNode"), ("content", .str "A table.")]])]

/-- A gate-passing table root whose `args` field is present but an empty
list, and which is centered and captioned. -/
def emptyArgsRoot : PyVal :=
  .dict [("type", .str "GroupNode"),
         ("delimiters", .pair "\\begin{table}" "\\end{table}"),
         ("args", .list []),
         ("children", .list [centerGroupRec, captionMacroRec])]

/-- A gate-passing table root one of whose direct children is a bare string
(the serialized `Chars` form). -/
def bareChildRoot : PyVal :=
  .dict [("type", .str "GroupNode"),
         ("delimiters", .pair "\\begin{table}" "\\end{table}"),
         ("children", .list [.str "Some text."])]

/-- The root of the spec's end-to-end example 2: the example-1 root with
`args` replaced by the empty list and the caption macro removed. -/
def specExample2Root : PyVal :=
  .dict [("type", .str "GroupNode"),
         ("delimiters", .pair "\\begin{table}" "\\end{table}"),
         ("args", .list []),
         ("children", .list [centerGroupRec])]

/-- A gate-passing, centered, captioned table root with no `args` key at
all. -/
def noArgsRoot : PyVal :=
  .dict [("type", .str "GroupNode"),
         ("delimiters", .pair "\\begin{table}" "\\end{table}"),
         ("children", .list [centerGroupRec, captionMacroRec])]

/-- A gate-passing table root whose caption macro is nested inside an
intermediate group child rather than being a direct child. -/
def nestedCaptionRoot : PyVal :=
  .dict [("type", .str "GroupNode"),
         ("delimiters", .pair "\\begin{table}" "\\end{table}"),
         ("children", .list
           [centerGroupRec,
            .dict [("type", .str "GroupNode"), ("delimiters", .pair "[" "]"),
                   ("children", .list [captionMacroRec])]])]

/-- A gate-passing root with a textual first argument lacking the `[H]`
token, a centering child, and no caption child (fails exactly checks 2 and
4). -/
def check24Root : PyVal :=
  .dict [("type", .str "GroupNode"),
         ("delimiters", .pair "\\begin{table}" "\\end{table}"),
         ("args", .list [.dict [("type", .str "CharsNode"), ("content", .str "[h!]")]]),
         ("children", .list [centerGroupRec])]

/-- A sample well-formed syntax tree exercising every node variant. -/
def sampleNode : LatexNode :=
  .environmentNode "table"
    (some [Option.none, some (.charsNode "[H]")])
    [.groupNode ("(", ")") [.charsNode "x", .commentNode "note"],
     .macroNode "caption" (some [some (.charsNode "A table.")]),
     .specialsNode "~" Option.none,
     .specialsNode "&" (some []),
     .mathNode [.charsNode "y"],
     .otherNode "LatexUnknownNode"]


theorem hexVal_hexDigitChar_fin : ∀ m : Fin 16, hexVal (hexDigitChar m.val) = m.val := by
  decide

theorem hexDigitChar_mod (n : Nat) : hexDigitChar (n % 16) = hexDigitChar n := by
  unfold hexDigitChar
  rw [Nat.mod_mod_of_dvd _ (by omega)]

theorem hexVal_hexDigitChar (n : Nat) : hexVal (hexDigitChar n) = n % 16 := by
  have h := hexVal_hexDigitChar_fin ⟨n % 16, by omega⟩
  simpa [hexDigitChar_mod] using h

/-! ## Lemmas: the escaping round-trip -/

theorem squote_eq : squote = '\x27' := rfl

theorem dquote_eq : dquote = '\x22' := rfl

theorem char_toNat_lt (c : Char) : c.toNat < 1114112 := by
  have h := c.valid
  rw [show c.toNat = c.val.toNat from rfl]
  rcases h with h | h <;> omega

theorem decodeEsc_raw (c : Char) (hc : ¬ c = '\\') (rest : List Char) :
    decodeEsc (c :: rest) = c :: decodeEsc rest := by
  rw [decodeEsc]; simp [hc]

theorem decodeEsc_bs (rest : List Char) :
    decodeEsc ('\\' :: rest) = (decodeEscAt rest).1 ++ decodeEsc (decodeEscAt rest).2 := by
  rw [decodeEsc]; simp

theorem decodeEscAt_bs (r : List Char) : decodeEscAt ('\\' :: r) = (['\\'], r) := by
  simp [decodeEscAt]

theorem decodeEscAt_t (r : List Char) : decodeEscAt ('t' :: r) = (['\t'], r) := by
  simp [decodeEscAt]

theorem decodeEscAt_nl (r : List Char) : decodeEscAt ('n' :: r) = (['\n'], r) := by
  simp [decodeEscAt]

theorem decodeEscAt_cr (r : List Char) : decodeEscAt ('r' :: r) = (['\r'], r) := by
  simp [decodeEscAt]

theorem decodeEscAt_sq (r : List Char) : decodeEscAt (squote :: r) = ([squote], r) := by
  simp [decodeEscAt, squote_eq]

theorem decodeEscAt_dq (r : List Char) : decodeEscAt (dquote :: r) = ([dquote], r) := by
  simp [decodeEscAt, squote_eq, dquote_eq]

theorem decodeEscAt_x (a b : Char) (r : List Char) :
    decodeEscAt ('x' :: a :: b :: r) = ([Char.ofNat (16 * hexVal a + hexVal b)], r) := by
  simp [decodeEscAt, squote_eq, dquote_eq]

theorem decodeEscAt_u (a b c d : Char) (r : List Char) :
    decodeEscAt ('u' :: a :: b :: c :: d :: r) =
      ([Char.ofNat (4096 * hexVal a + 256 * hexVal b + 16 * hexVal c + hexVal d)], r) := by
  simp [decodeEscAt, squote_eq, dquote_eq]

theorem decodeEscAt_bigU (a b c d a2 b2 c2 d2 : Char) (r : List Char) :
    decodeEscAt ('U' :: a :: b :: c :: d :: a2 :: b2 :: c2 :: d2 :: r) =
      ([Char.ofNat (268435456 * hexVal a + 16777216 * hexVal b + 1048576 * hexVal c +
          65536 * hexVal d + 4096 * hexVal a2 + 256 * hexVal b2 + 16 * hexVal c2 + hexVal d2)], r) := by
  simp [decodeEscAt, squote_eq, dquote_eq]

theorem decodeEsc_escChar (p : Char → Bool) (q : Char) (hq : q = squote ∨ q = dquote)
    (c : Char) (rest : List Char) :
    decodeEsc (escChar p q c ++ rest) = c :: decodeEsc rest := by
  unfold escChar
  by_cases h1 : c = '\\' ∨ c = q
  · rw [if_pos h1]
    rcases h1 with h | h
    · subst h; simp [decodeEsc_bs, decodeEscAt_bs]
    · subst h
      rcases hq with h2 | h2 <;> subst h2
      · simp [decodeEsc_bs, decodeEscAt_sq]
      · simp [decodeEsc_bs, decodeEscAt_dq]
  · rw [if_neg h1]
    have hnbs : ¬ c = '\\' := fun hh => h1 (Or.inl hh)
    by_cases h2 : c = '\t'
    · rw [if_pos h2]; subst h2; simp [decodeEsc_bs, decodeEscAt_t]
    · rw [if_neg h2]
      by_cases h3 : c = '\n'
      · rw [if_pos h3]; subst h3; simp [decodeEsc_bs, decodeEscAt_nl]
      · rw [if_neg h3]
        by_cases h4 : c = '\r'
        · rw [if_pos h4]; subst h4; simp [decodeEsc_bs, decodeEscAt_cr]
        · rw [if_neg h4]
          by_cases h5 : c.toNat < 32 ∨ c.toNat = 127
          · rw [if_pos h5]
            simp only [hex2, List.cons_append, List.nil_append]
            rw [decodeEsc_bs, decodeEscAt_x]
            simp only [hexVal_hexDigitChar]
            rw [show 16 * (c.toNat / 16 % 16) + c.toNat % 16 = c.toNat from by omega,
              Char.ofNat_toNat]
            simp
          · rw [if_neg h5]
            by_cases h6 : c.toNat < 127
            · rw [if_pos h6]
              simp [decodeEsc_raw c hnbs]
            · rw [if_neg h6]
              by_cases h7 : p c = true
              · rw [if_pos h7]
                simp [decodeEsc_raw c hnbs]
              · rw [if_neg h7]
                by_cases h8 : c.toNat < 256
                · rw [if_pos h8]
                  simp only [hex2, List.cons_append, List.nil_append]
                  rw [decodeEsc_bs, decodeEscAt_x]
                  simp only [hexVal_hexDigitChar]
                  rw [show 16 * (c.toNat / 16 % 16) + c.toNat % 16 = c.toNat from by omega,
                    Char.ofNat_toNat]
                  simp
                · rw [if_neg h8]
                  by_cases h9 : c.toNat < 65536
                  · rw [if_pos h9]
                    simp only [hex4, List.cons_append, List.nil_append]
                    rw [decodeEsc_bs, decodeEscAt_u]
                    simp only [hexVal_hexDigitChar]
                    rw [show 4096 * (c.toNat / 4096 % 16) + 256 * (c.toNat / 256 % 16) +
                        16 * (c.toNat / 16 % 16) + c.toNat % 16 = c.toNat from by omega,
                      Char.ofNat_toNat]
                    simp
                  · rw [if_neg h9]
                    have hv := char_toNat_lt c
                    simp only [hex8, hex4, List.cons_append, List.nil_append]
                    rw [decodeEsc_bs, decodeEscAt_bigU]
                    simp only [hexVal_hexDigitChar]
                    rw [show 268435456 * (c.toNat / 268435456 % 16) +
                        16777216 * (c.toNat / 16777216 % 16) +
                        1048576 * (c.toNat / 1048576 % 16) + 65536 * (c.toNat / 65536 % 16) +
                        4096 * (c.toNat / 4096 % 16) + 256 * (c.toNat / 256 % 16) +
                        16 * (c.toNat / 16 % 16) + c.toNat % 16 = c.toNat from by omega,
                      Char.ofNat_toNat]
                    simp

theorem pyQuoteChar_cases (s : String) : pyQuoteChar s = squote ∨ pyQuoteChar s = dquote := by
  unfold pyQuoteChar
  split
  · exact Or.inr rfl
  · exact Or.inl rfl

theorem decodeEsc_escList (p : Char → Bool) (q : Char) (hq : q = squote ∨ q = dquote)
    (l : List Char) : decodeEsc (escList p q l) = l := by
  induction l with
  | nil => simp [escList, decodeEsc]
  | cons c cs ih =>
    rw [escList, decodeEsc_escChar p q hq c (escList p q cs), ih]

/-- Claim C8: the Chars escaping transform is exactly invertible.  For every
raw literal text `T` (and every printability table), the builder serializes
a `Chars` node with content `T` to the escaped string
`reprStripped printable T`, and decoding that escaped string yields back
exactly `T`. -/
theorem claim_C8_escaping_roundtrip (printable : Char → Bool) (T : String) :
    convert_node_to_dict printable (some (LatexNode.charsNode T)) =
      .ok (.str (reprStripped printable T)) ∧
    decodeEscString (reprStripped printable T) = T := by
  refine ⟨rfl, ?_⟩
  unfold decodeEscString reprStripped
  rw [show (String.mk (escList printable (pyQuoteChar T) T.data)).data =
      escList printable (pyQuoteChar T) T.data from rfl]
  rw [decodeEsc_escList printable _ (pyQuoteChar_cases T) T.data]


/-! ## Lemmas: evaluating the lint engine -/

theorem aux_ok_bind {α β : Type} (a : α) (f : α → Except PyErr β) :
    (Except.ok a : Except PyErr α) >>= f = f a := rfl

theorem aux_error_bind {α β : Type} (e : PyErr) (f : α → Except PyErr β) :
    (Except.error e : Except PyErr α) >>= f = Except.error e := rfl

theorem pyGet_dict (kvs : List (String × PyVal)) (k : String) (d : PyVal) :
    pyGet (.dict kvs) k d = .ok ((kvs.lookup k).getD d) := rfl

theorem isCenterGroup_dict (kvs : List (String × PyVal)) :
    isCenterGroup (.dict kvs) = .ok (isCenterGroupB (.dict kvs)) := by
  unfold isCenterGroup isCenterGroupB
  rw [pyGet_dict, aux_ok_bind]
  cases h : pyEqStr ((kvs.lookup "type").getD PyVal.none) "GroupNode" <;>
    simp [h, pyGet_dict, aux_ok_bind, pure, Except.pure]

theorem isCaptionMacro_dict (kvs : List (String × PyVal)) :
    isCaptionMacro (.dict kvs) = .ok (isCaptionMacroB (.dict kvs)) := by
  unfold isCaptionMacro isCaptionMacroB
  rw [pyGet_dict, aux_ok_bind]
  cases h : pyEqStr ((kvs.lookup "type").getD PyVal.none) "MacroNode" <;>
    simp [h, pyGet_dict, aux_ok_bind, pure, Except.pure]

theorem pyAnyLoop_dicts (f : PyVal → Except PyErr Bool) (fB : PyVal → Bool)
    (hf : ∀ kvs, f (.dict kvs) = .ok (fB (.dict kvs)))
    (cs : List PyVal) (hd : cs.all isDict = true) (acc : Bool) :
    pyAnyLoop f cs acc = .ok (acc || cs.any fB) := by
  induction cs generalizing acc with
  | nil => simp [pyAnyLoop]
  | cons c cs ih =>
    simp only [List.all_cons, Bool.and_eq_true] at hd
    obtain ⟨hc, hcs⟩ := hd
    cases c with
    | dict kvs =>
      rw [pyAnyLoop, hf kvs, aux_ok_bind, ih hcs (acc || fB (.dict kvs))]
      simp [List.any_cons, Bool.or_assoc]
    | none => simp [isDict] at hc
    | str s => simp [isDict] at hc
    | pair a b => simp [isDict] at hc
    | list xs => simp [isDict] at hc


theorem aux_pure {α : Type} (a : α) : (pure a : Except PyErr α) = Except.ok a := rfl

theorem pyEqStr_true_iff (v : PyVal) (s : String) : pyEqStr v s = true ↔ v = .str s := by
  cases v <;> simp [pyEqStr]

theorem pyEqPair_true_iff (v : PyVal) (a b : String) :
    pyEqPair v a b = true ↔ v = .pair a b := by
  cases v <;> simp [pyEqPair]

theorem lintCheck2_no_args (kvs : List (String × PyVal))
    (h : kvs.lookup "args" = Option.none) :
    lintCheck2 (.dict kvs) = .ok [] := by
  unfold lintCheck2
  rw [pyGet_dict, h]
  simp only [Option.getD_none]
  rw [aux_ok_bind,
    show pySub0 (.list [PyVal.dict []]) = .ok (.dict []) from rfl, aux_ok_bind,
    show pyGet (.dict []) "type" PyVal.none = .ok PyVal.none from rfl, aux_ok_bind]
  simp [pyEqStr, aux_pure, aux_ok_bind]

theorem lintCheck2_nonchars (kvs akvs : List (String × PyVal)) (rest : List PyVal)
    (ha : kvs.lookup "args" = some (.list (.dict akvs :: rest)))
    (ht : pyEqStr ((akvs.lookup "type").getD PyVal.none) "CharsNode" = false) :
    lintCheck2 (.dict kvs) = .ok [] := by
  unfold lintCheck2
  rw [pyGet_dict, ha]
  simp only [Option.getD_some]
  rw [aux_ok_bind,
    show pySub0 (.list (PyVal.dict akvs :: rest)) = .ok (.dict akvs) from rfl,
    aux_ok_bind, pyGet_dict, aux_ok_bind]
  simp [ht, aux_pure, aux_ok_bind]

theorem pyGetItem_found (kvs : List (String × PyVal)) (k : String) (w : PyVal)
    (h : kvs.lookup k = some w) : pyGetItem (.dict kvs) k = .ok w := by
  show (match kvs.lookup k with
        | some w => (Except.ok w : Except PyErr PyVal)
        | Option.none => Except.error PyErr.keyError) = Except.ok w
  rw [h]

theorem lintCheck2_chars (kvs akvs : List (String × PyVal)) (rest : List PyVal) (s : String)
    (ha : kvs.lookup "args" = some (.list (.dict akvs :: rest)))
    (ht : akvs.lookup "type" = some (.str "CharsNode"))
    (hc : akvs.lookup "content" = some (.str s)) :
    lintCheck2 (.dict kvs) = .ok
      (if hasInfixCL "[H]".data s.data then [] else
        ["Table does not have a [H] positioning directive."]) := by
  unfold lintCheck2
  rw [pyGet_dict, ha]
  simp only [Option.getD_some]
  rw [aux_ok_bind,
    show pySub0 (.list (PyVal.dict akvs :: rest)) = .ok (.dict akvs) from rfl,
    aux_ok_bind, pyGet_dict, ht, aux_ok_bind]
  simp only [Option.getD_some, pyEqStr, beq_self_eq_true, if_true]
  rw [pyGetItem_found kvs "args" _ ha, aux_ok_bind,
    show pySub0 (.list (PyVal.dict akvs :: rest)) = .ok (.dict akvs) from rfl,
    aux_ok_bind, pyGet_dict, hc, aux_ok_bind]
  simp only [Option.getD_some]
  unfold pyInStr
  rw [aux_ok_bind]
  cases hin : hasInfixCL "[H]".data s.data <;> simp [hin, aux_pure, aux_ok_bind]


theorem lintCheck34_eval (kvs : List (String × PyVal)) (cs : List PyVal)
    (hc : kvs.lookup "children" = some (.list cs)) (hd : cs.all isDict = true) :
    lintCheck34 (.dict kvs) = .ok
      ((if cs.any isCenterGroupB then [] else
          ["Table is not centered using \\begin{center} and \\end{center}."]) ++
       (if cs.any isCaptionMacroB then [] else
          ["Table does not have a caption using \\caption."])) := by
  unfold lintCheck34
  simp only [pyGet_dict, hc, Option.getD_some, aux_ok_bind,
    show pyIter (.list cs) = .ok cs from rfl,
    pyAnyLoop_dicts isCenterGroup isCenterGroupB isCenterGroup_dict cs hd,
    pyAnyLoop_dicts isCaptionMacro isCaptionMacroB isCaptionMacro_dict cs hd,
    aux_pure, Bool.false_or]

theorem aux_map_ok {α β : Type} (g : α → β) (a : α) :
    g <$> (Except.ok a : Except PyErr α) = Except.ok (g a) := rfl

theorem aux_map_error {α β : Type} (g : α → β) (e : PyErr) :
    g <$> (Except.error e : Except PyErr α) = Except.error e := rfl

theorem lintCheck34_shape (td : PyVal) :
    (∃ e, lintCheck34 td = .error e) ∨
    ∃ (b3 b4 : Bool), lintCheck34 td = .ok
      ((if b3 then [] else
          ["Table is not centered using \\begin{center} and \\end{center}."]) ++
       (if b4 then [] else
          ["Table does not have a caption using \\caption."])) := by
  unfold lintCheck34
  cases h1 : pyGet td "children" (.list []) with
  | error e => exact Or.inl ⟨e, by simp [aux_error_bind]⟩
  | ok cv =>
    cases h2 : pyIter cv with
    | error e =>
      exact Or.inl ⟨e, by simp [h2, aux_ok_bind, aux_error_bind, aux_map_error]⟩
    | ok cs =>
      cases h3 : pyAnyLoop isCenterGroup cs false with
      | error e =>
        exact Or.inl ⟨e, by simp [h2, h3, aux_ok_bind, aux_error_bind, aux_map_error]⟩
      | ok b3 =>
        cases h4 : pyAnyLoop isCaptionMacro cs false with
        | error e =>
          exact Or.inl ⟨e, by
            simp [h2, h3, h4, aux_ok_bind, aux_error_bind, aux_map_error]⟩
        | ok b4 =>
          refine Or.inr ⟨b3, b4, ?_⟩
          simp [h2, h3, h4, aux_ok_bind, aux_pure, aux_map_ok]

theorem lint_gate_pass (kvs : List (String × PyVal))
    (ht : kvs.lookup "type" = some (.str "GroupNode"))
    (hd : kvs.lookup "delimiters" = some (.pair "\\begin{table}" "\\end{table}")) :
    lint_table (.dict kvs) =
      (lintCheck2 (.dict kvs)) >>= fun w2 =>
      (lintCheck34 (.dict kvs)) >>= fun w34 => pure (w2 ++ w34) := by
  unfold lint_table
  rw [pyGet_dict, ht]
  simp only [Option.getD_some]
  rw [aux_ok_bind]
  simp only [pyEqStr, beq_self_eq_true, Bool.not_true, Bool.false_eq_true, if_false]
  rw [pyGet_dict, hd]
  simp only [Option.getD_some]
  rw [aux_ok_bind]
  simp only [pyEqPair, beq_self_eq_true, Bool.and_self, Bool.not_true, aux_pure]
  rw [aux_ok_bind]
  simp only [Bool.false_eq_true, if_false]

/-- Claim C5: a root record whose `type` is not `"GroupNode"` or whose
`delimiters` differ from the table marker tuple yields exactly the single
"not detected" warning, regardless of its other fields. -/
theorem claim_C5_gate (kvs : List (String × PyVal))
    (h : (kvs.lookup "type").getD PyVal.none ≠ .str "GroupNode" ∨
         (kvs.lookup "delimiters").getD PyVal.none ≠ .pair "\\begin{table}" "\\end{table}") :
    lint_table (.dict kvs) = .ok ["Table environment not detected."] := by
  unfold lint_table
  rw [pyGet_dict, aux_ok_bind]
  cases hb : pyEqStr ((kvs.lookup "type").getD PyVal.none) "GroupNode" with
  | false =>
    simp only [hb, Bool.not_false, if_true, aux_ok_bind, aux_pure]
  | true =>
    have htv := (pyEqStr_true_iff _ _).mp hb
    have h2 : (kvs.lookup "delimiters").getD PyVal.none ≠
        .pair "\\begin{table}" "\\end{table}" := by
      rcases h with h | h
      · exact absurd htv h
      · exact h
    simp only [hb, Bool.not_true, Bool.false_eq_true, if_false]
    rw [pyGet_dict, aux_ok_bind]
    cases hp : pyEqPair ((kvs.lookup "delimiters").getD PyVal.none)
        "\\begin{table}" "\\end{table}" with
    | false =>
      simp only [aux_pure, aux_ok_bind, Bool.not_false, if_true]
    | true =>
      exact absurd ((pyEqPair_true_iff _ _ _).mp hp) h2

theorem claim_C5_gate_witness :
    lint_table (.dict [("type", .str "CharsNode")]) = .ok ["Table environment not detected."] := by
  apply claim_C5_gate
  left
  intro hcon
  simp at hcon



/-! ## Claim theorems on the lint engine -/

/-- Claim C1 (code-bug evidence): the lint engine is NOT total.  On a
gate-passing root whose `args` field is an empty list it raises `IndexError`
(`.get("args", [{}])[0]` does not guard the present-but-empty case); on a
gate-passing root one of whose direct children is a bare string it raises
`AttributeError` (a string has no `.get`); likewise on a bare-string root. -/
theorem claim_C1_not_total :
    lint_table emptyArgsRoot = .error .indexError ∧
    lint_table bareChildRoot = .error .attributeError ∧
    lint_table (.str "Some text.") = .error .attributeError :=
  ⟨rfl, rfl, rfl⟩

/-- Claim C2 (code-bug evidence): the converter serializes a Group's
`delimiters` as `str(node.delimiters)` — a string — while the lint gate
compares `delimiters` against a tuple, so `lint_table` applied to the
converted form of a Group node carrying exactly the table delimiter pair
still fails the environment gate and returns the "not detected" warning. -/
theorem claim_C2_shape_mismatch :
    (convertNode printableDefault
        (LatexNode.groupNode ("\\begin{table}", "\\end{table}") [])).bind lint_table =
      Except.ok ["Table environment not detected."] ∧
    convertNode printableDefault (LatexNode.groupNode ("\\begin{table}", "\\end{table}") []) =
      Except.ok (.dict [("type", .str "GroupNode"),
        ("delimiters", .str "('\\\\begin{table}', '\\\\end{table}')"),
        ("children", .list [])]) :=
  ⟨rfl, rfl⟩

/-- Claim C4 (code-bug evidence): on the root of the spec's end-to-end
example 2 (table Group, `args: []`, centered, caption removed) `lint_table`
raises `IndexError` instead of returning the two promised warnings, because
`.get("args", [{}])[0]` subscripts the present-but-empty `args` list. -/
theorem claim_C4_spec_example2 :
    lint_table specExample2Root = .error .indexError := rfl

/-- Claim C3 counterexample: a gate-passing, centered and captioned root
with no `args` key at all receives NO positioning warning — `lint_table`
returns `[]` — whereas the claim requires the positioning warning to be
appended in exactly this situation. -/
theorem claim_C3_counterexample :
    lint_table noArgsRoot = Except.ok [] ∧
    lintHasWarning noArgsRoot "Table does not have a [H] positioning directive." = false :=
  ⟨rfl, rfl⟩

/-- Claim C3 (amended): for every root record that passes the environment
gate, if the root has no `args` key at all, or its first declared argument
is a record that is not Chars-shaped, then `lint_table` does NOT append the
positioning warning: check 2 is silently skipped (its condition is false),
so the positioning warning cannot appear in the result, whether the
remaining checks return or raise. -/
theorem claim_C3_amended (kvs akvs : List (String × PyVal)) (rest : List PyVal)
    (ht : kvs.lookup "type" = some (.str "GroupNode"))
    (hd : kvs.lookup "delimiters" = some (.pair "\\begin{table}" "\\end{table}"))
    (ha : kvs.lookup "args" = Option.none ∨
          (kvs.lookup "args" = some (.list (.dict akvs :: rest)) ∧
           pyEqStr ((akvs.lookup "type").getD PyVal.none) "CharsNode" = false)) :
    lintHasWarning (.dict kvs) "Table does not have a [H] positioning directive." = false := by
  have h2 : lintCheck2 (.dict kvs) = .ok [] := by
    rcases ha with h | ⟨h, hne⟩
    · exact lintCheck2_no_args kvs h
    · exact lintCheck2_nonchars kvs akvs rest h hne
  unfold lintHasWarning
  rw [lint_gate_pass kvs ht hd, h2, aux_ok_bind]
  rcases lintCheck34_shape (.dict kvs) with ⟨e, he⟩ | ⟨b3, b4, hok⟩
  · rw [he, aux_error_bind]
  · rw [hok, aux_ok_bind, aux_pure]
    cases b3 <;> cases b4 <;> rfl

/-- Witness for `claim_C3_amended` at a concrete root whose first argument
is a Macro record. -/
theorem claim_C3_amended_witness :
    lintHasWarning
      (.dict [("type", .str "GroupNode"),
              ("delimiters", .pair "\\begin{table}" "\\end{table}"),
              ("args", .list [.dict [("type", .str "MacroNode")]]),
              ("children", .list [])])
      "Table does not have a [H] positioning directive." = false :=
  claim_C3_amended _ [("type", PyVal.str "MacroNode")] [] rfl rfl (Or.inr ⟨rfl, rfl⟩)

/-- Claim C6: checks 2-4 are independent and their warnings keep the fixed
order.  Every gate-passing root that fails exactly checks 2 and 4 but
passes check 3 — a textual first argument without the `[H]` token, a direct
centering-Group child present, no direct caption-Macro child (children all
records) — yields exactly the positioning warning followed by the caption
warning, with no centering warning. -/
theorem claim_C6_order (kvs akvs : List (String × PyVal)) (rest : List PyVal) (s : String)
    (cs : List PyVal)
    (ht : kvs.lookup "type" = some (.str "GroupNode"))
    (hd : kvs.lookup "delimiters" = some (.pair "\\begin{table}" "\\end{table}"))
    (ha : kvs.lookup "args" = some (.list (.dict akvs :: rest)))
    (hat : akvs.lookup "type" = some (.str "CharsNode"))
    (hac : akvs.lookup "content" = some (.str s))
    (hs : hasInfixCL "[H]".data s.data = false)
    (hc : kvs.lookup "children" = some (.list cs))
    (hdict : cs.all isDict = true)
    (hcenter : cs.any isCenterGroupB = true)
    (hcap : cs.any isCaptionMacroB = false) :
    lint_table (.dict kvs) = .ok
      ["Table does not have a [H] positioning directive.",
       "Table does not have a caption using \\caption."] := by
  rw [lint_gate_pass kvs ht hd,
    lintCheck2_chars kvs akvs rest s ha hat hac, aux_ok_bind,
    lintCheck34_eval kvs cs hc hdict]
  simp [hs, hcenter, hcap, aux_ok_bind, aux_pure]

/-- Witness for `claim_C6_order` at the concrete root `check24Root`. -/
theorem claim_C6_order_witness :
    lint_table check24Root = .ok
      ["Table does not have a [H] positioning directive.",
       "Table does not have a caption using \\caption."] :=
  claim_C6_order
    [("type", .str "GroupNode"),
     ("delimiters", .pair "\\begin{table}" "\\end{table}"),
     ("args", .list [.dict [("type", .str "CharsNode"), ("content", .str "[h!]")]]),
     ("children", .list [centerGroupRec])]
    [("type", .str "CharsNode"), ("content", .str "[h!]")] [] "[h!]"
    [centerGroupRec]
    rfl rfl rfl rfl rfl rfl rfl rfl rfl rfl

/-- Claim C10: the caption search is shallow.  For every gate-passing root
(record children, no `args` key) whose caption macro sits inside an
intermediate Group child rather than being a direct child, `lint_table`
does not detect it and still reports the missing-caption warning. -/
theorem claim_C10_shallow (kvs gkvs : List (String × PyVal)) (cs gcs : List PyVal)
    (ht : kvs.lookup "type" = some (.str "GroupNode"))
    (hd : kvs.lookup "delimiters" = some (.pair "\\begin{table}" "\\end{table}"))
    (hnoargs : kvs.lookup "args" = Option.none)
    (hc : kvs.lookup "children" = some (.list cs))
    (hdict : cs.all isDict = true)
    (_hmem : PyVal.dict gkvs ∈ cs)
    (_hgtype : gkvs.lookup "type" = some (.str "GroupNode"))
    (_hgch : gkvs.lookup "children" = some (.list gcs))
    (_hnested : gcs.any isCaptionMacroB = true)
    (hnodirect : cs.any isCaptionMacroB = false) :
    lintHasWarning (.dict kvs) "Table does not have a caption using \\caption." = true := by
  unfold lintHasWarning
  rw [lint_gate_pass kvs ht hd, lintCheck2_no_args kvs hnoargs, aux_ok_bind,
    lintCheck34_eval kvs cs hc hdict, aux_ok_bind, aux_pure]
  cases hcen : cs.any isCenterGroupB <;> simp only [hcen, hnodirect] <;> rfl

/-- Witness for `claim_C10_shallow` at the concrete root
`nestedCaptionRoot`. -/
theorem claim_C10_shallow_witness :
    lintHasWarning nestedCaptionRoot "Table does not have a caption using \\caption." = true :=
  claim_C10_shallow
    [("type", .str "GroupNode"),
     ("delimiters", .pair "\\begin{table}" "\\end{table}"),
     ("children", .list
       [centerGroupRec,
        .dict [("type", .str "GroupNode"), ("delimiters", .pair "[" "]"),
               ("children", .list [captionMacroRec])]])]
    [("type", .str "GroupNode"), ("delimiters", .pair "[" "]"),
     ("children", .list [captionMacroRec])]
    [centerGroupRec,
     .dict [("type", .str "GroupNode"), ("delimiters", .pair "[" "]"),
            ("children", .list [captionMacroRec])]]
    [captionMacroRec]
    rfl rfl rfl rfl rfl
    (List.Mem.tail _ (List.Mem.head _))
    rfl rfl rfl rfl



/-! ## Claim theorems on the canonical tree builder -/

theorem list_isPrefixOf_append (l r : List Char) : l.isPrefixOf (l ++ r) = true := by
  induction l with
  | nil => simp [List.isPrefixOf]
  | cons a as ih => simp [List.isPrefixOf, ih]

theorem data_append_mk (a : String) (tl : List Char) :
    (a ++ String.mk tl).data = a.data ++ tl := by
  obtain ⟨al⟩ := a
  rfl

mutual

theorem convertNode_good (p : Char → Bool) (n : LatexNode) (h : wfNode n = true) :
    goodE (convertNode p n) = true := by
  cases n with
  | macroNode name nodeargd =>
    cases nodeargd with
    | none => simp [wfNode] at h
    | some args =>
      have hargs : wfOptList args = true := by simpa [wfNode] using h
      have hl := convertOptList_good p args hargs
      cases hc : convertOptList p args with
      | error e => rw [hc] at hl; simp [goodListE] at hl
      | ok vs =>
        rw [hc] at hl
        simp only [goodListE] at hl
        simp only [convertNode]
        rw [hc, aux_ok_bind, aux_pure]
        simp [goodE, goodNode, goodTag, goodFields, goodField, hl]
  | groupNode delims nodelist =>
    have hns : wfList nodelist = true := by simpa [wfNode] using h
    have hl := convertList_good p nodelist hns
    cases hc : convertList p nodelist with
    | error e => rw [hc] at hl; simp [goodListE] at hl
    | ok vs =>
      rw [hc] at hl
      simp only [goodListE] at hl
      simp only [convertNode]
      rw [hc, aux_ok_bind, aux_pure]
      simp [goodE, goodNode, goodTag, goodFields, goodField, hl]
  | charsNode chars => simp [convertNode, goodE, goodNode, aux_pure]
  | commentNode comment =>
    simp [convertNode, goodE, goodNode, goodTag, goodFields, goodField, aux_pure]
  | environmentNode name nodeargd nodelist =>
    cases nodeargd with
    | none => simp [wfNode] at h
    | some args =>
      simp only [wfNode, Bool.and_eq_true] at h
      obtain ⟨hargs, hns⟩ := h
      have hla := convertOptList_good p args hargs
      have hln := convertList_good p nodelist hns
      cases hca : convertOptList p args with
      | error e => rw [hca] at hla; simp [goodListE] at hla
      | ok vas =>
        rw [hca] at hla
        simp only [goodListE] at hla
        cases hcn : convertList p nodelist with
        | error e => rw [hcn] at hln; simp [goodListE] at hln
        | ok vns =>
          rw [hcn] at hln
          simp only [goodListE] at hln
          simp only [convertNode]
          rw [hca, aux_ok_bind, hcn, aux_ok_bind, aux_pure]
          simp [goodE, goodNode, goodTag, goodFields, goodField, hla, hln]
  | specialsNode sc nodeargd =>
    cases nodeargd with
    | none =>
      simp [convertNode, goodE, goodNode, goodTag, goodFields, goodField, goodNodes, aux_pure]
    | some args =>
      have hargs : wfOptList args = true := by simpa [wfNode] using h
      have hl := convertOptList_good p args hargs
      cases hc : convertOptList p args with
      | error e => rw [hc] at hl; simp [goodListE] at hl
      | ok vs =>
        rw [hc] at hl
        simp only [goodListE] at hl
        simp only [convertNode]
        rw [hc, aux_ok_bind, aux_pure]
        simp [goodE, goodNode, goodTag, goodFields, goodField, hl]
  | mathNode nodelist =>
    have hns : wfList nodelist = true := by simpa [wfNode] using h
    have hl := convertList_good p nodelist hns
    cases hc : convertList p nodelist with
    | error e => rw [hc] at hl; simp [goodListE] at hl
    | ok vs =>
      rw [hc] at hl
      simp only [goodListE] at hl
      simp only [convertNode]
      rw [hc, aux_ok_bind, aux_pure]
      simp [goodE, goodNode, goodTag, goodFields, goodField, hl]
  | otherNode typename =>
    obtain ⟨tl⟩ := typename
    simp [convertNode, aux_pure, goodE, goodNode, goodTag, goodFields, goodField,
      List.lookup, data_append_mk, list_isPrefixOf_append]

theorem convertOpt_good (p : Char → Bool) (a : Option LatexNode) (h : wfOpt a = true) :
    goodE (convert_node_to_dict p a) = true := by
  cases a with
  | none => simp [convert_node_to_dict, goodE, goodNode, aux_pure]
  | some n =>
    have hn : wfNode n = true := by simpa [wfOpt] using h
    simpa [convert_node_to_dict] using convertNode_good p n hn

theorem convertOptList_good (p : Char → Bool) (l : List (Option LatexNode))
    (h : wfOptList l = true) : goodListE (convertOptList p l) = true := by
  cases l with
  | nil => simp [convertOptList, goodListE, goodNodes, aux_pure]
  | cons a rest =>
    simp only [wfOptList, Bool.and_eq_true] at h
    obtain ⟨ha, hrest⟩ := h
    have h1 := convertOpt_good p a ha
    have h2 := convertOptList_good p rest hrest
    cases hc1 : convert_node_to_dict p a with
    | error e => rw [hc1] at h1; simp [goodE] at h1
    | ok v =>
      rw [hc1] at h1
      simp only [goodE] at h1
      cases hc2 : convertOptList p rest with
      | error e => rw [hc2] at h2; simp [goodListE] at h2
      | ok vs =>
        rw [hc2] at h2
        simp only [goodListE] at h2
        simp only [convertOptList]
        rw [hc1, aux_ok_bind, hc2, aux_ok_bind, aux_pure]
        simp [goodListE, goodNodes, h1, h2]

theorem convertList_good (p : Char → Bool) (l : List LatexNode)
    (h : wfList l = true) : goodListE (convertList p l) = true := by
  cases l with
  | nil => simp [convertList, goodListE, goodNodes, aux_pure]
  | cons n rest =>
    simp only [wfList, Bool.and_eq_true] at h
    obtain ⟨hn, hrest⟩ := h
    have h1 := convertNode_good p n hn
    have h2 := convertList_good p rest hrest
    cases hc1 : convertNode p n with
    | error e => rw [hc1] at h1; simp [goodE] at h1
    | ok v =>
      rw [hc1] at h1
      simp only [goodE] at h1
      cases hc2 : convertList p rest with
      | error e => rw [hc2] at h2; simp [goodListE] at h2
      | ok vs =>
        rw [hc2] at h2
        simp only [goodListE] at h2
        simp only [convertList]
        rw [hc1, aux_ok_bind, hc2, aux_ok_bind, aux_pure]
        simp [goodListE, goodNodes, h1, h2]

end


theorem goodListE_ok (e : Except PyErr (List PyVal)) (h : goodListE e = true) :
    ∃ vs, e = .ok vs ∧ goodNodes vs = true := by
  cases e with
  | error er => simp [goodListE] at h
  | ok vs => exact ⟨vs, rfl, by simpa [goodListE] using h⟩

/-- Claim C9: totality with graceful fallback.  For every well-formed
syntax node (argument descriptors present where required) the builder
returns without failure a value all of whose variants are among the eight
listed (record tags, bare strings for Chars, null for absent children); and
a node of any unrecognized kind maps to the Unknown record carrying the
label derived from its runtime type name, never failing. -/
theorem claim_C9_totality (p : Char → Bool) (n : LatexNode) (t : String)
    (h : wfNode n = true) :
    (∃ v, convert_node_to_dict p (some n) = .ok v ∧ goodNode v = true) ∧
    convert_node_to_dict p (some (LatexNode.otherNode t)) =
      .ok (.dict [("type", .str ("Unknown;" ++ t))]) := by
  constructor
  · have hg := convertNode_good p n h
    cases hc : convertNode p n with
    | error e => rw [hc] at hg; simp [goodE] at hg
    | ok v =>
      rw [hc] at hg
      simp only [goodE] at hg
      exact ⟨v, hc, hg⟩
  · rfl

/-- Witness for `claim_C9_totality` at a concrete tree exercising every
variant. -/
theorem claim_C9_totality_witness :
    (∃ v, convert_node_to_dict printableDefault (some sampleNode) = .ok v ∧
      goodNode v = true) ∧
    convert_node_to_dict printableDefault (some (LatexNode.otherNode "LatexOtherNode")) =
      .ok (.dict [("type", .str ("Unknown;" ++ "LatexOtherNode"))]) :=
  claim_C9_totality printableDefault sampleNode "LatexOtherNode" rfl

/-- Claim C7 counterexample: a Comment node serializes to a record with
field names `type`/`comment`, not the claimed `type`/`text` (likewise
Environment uses `environmentname`, not `name`, and Math uses `nodelist`,
not `children`). -/
theorem claim_C7_counterexample :
    (convertNode printableDefault (LatexNode.commentNode "c")).map dictKeys =
      Except.ok (some ["type", "comment"]) ∧
    (some ["type", "comment"] : Option (List String)) ≠ some ["type", "text"] :=
  ⟨rfl, by decide⟩

/-- Claim C7 (amended): each canonical node serializes to a keyed record
whose field names are exactly `type`, plus for Macro `macroname`/`args`,
for Group `delimiters`/`children`, for Environment
`environmentname`/`args`/`children`, for Comment `comment`, for Specials
`specials`/`args`, for Math `nodelist` (and `type` alone for Unknown) —
except Chars, which serializes to a bare string value rather than a
record. -/
theorem claim_C7_amended (p : Char → Bool) (n : LatexNode) (h : wfNode n = true) :
    ∃ v, convertNode p n = .ok v ∧ dictKeys v = expectedKeys n ∧
      (isCharsNodeL n = true → isStr v = true) := by
  cases n with
  | macroNode name nodeargd =>
    cases nodeargd with
    | none => simp [wfNode] at h
    | some args =>
      have hargs : wfOptList args = true := by simpa [wfNode] using h
      obtain ⟨vs, hc, _⟩ := goodListE_ok _ (convertOptList_good p args hargs)
      refine ⟨.dict [("type", .str "MacroNode"), ("macroname", .str name),
        ("args", .list vs)], ?_, rfl, ?_⟩
      · simp only [convertNode]
        rw [hc, aux_ok_bind, aux_pure]
      · intro hh; simp [isCharsNodeL] at hh
  | groupNode delims nodelist =>
    have hns : wfList nodelist = true := by simpa [wfNode] using h
    obtain ⟨vs, hc, _⟩ := goodListE_ok _ (convertList_good p nodelist hns)
    refine ⟨.dict [("type", .str "GroupNode"),
      ("delimiters", .str (strOfStrPair p delims.1 delims.2)),
      ("children", .list vs)], ?_, rfl, ?_⟩
    · simp only [convertNode]
      rw [hc, aux_ok_bind, aux_pure]
    · intro hh; simp [isCharsNodeL] at hh
  | charsNode chars =>
    exact ⟨.str (reprStripped p chars), rfl, rfl, fun _ => rfl⟩
  | commentNode comment =>
    exact ⟨.dict [("type", .str "CommentNode"), ("comment", .str comment)], rfl, rfl,
      by intro hh; simp [isCharsNodeL] at hh⟩
  | environmentNode name nodeargd nodelist =>
    cases nodeargd with
    | none => simp [wfNode] at h
    | some args =>
      simp only [wfNode, Bool.and_eq_true] at h
      obtain ⟨hargs, hns⟩ := h
      obtain ⟨vas, hca, _⟩ := goodListE_ok _ (convertOptList_good p args hargs)
      obtain ⟨vns, hcn, _⟩ := goodListE_ok _ (convertList_good p nodelist hns)
      refine ⟨.dict [("type", .str "EnvironmentNode"), ("environmentname", .str name),
        ("args", .list vas), ("children", .list vns)], ?_, rfl, ?_⟩
      · simp only [convertNode]
        rw [hca, aux_ok_bind, hcn, aux_ok_bind, aux_pure]
      · intro hh; simp [isCharsNodeL] at hh
  | specialsNode sc nodeargd =>
    cases nodeargd with
    | none =>
      exact ⟨.dict [("type", .str "SpecialsNode"), ("specials", .str sc),
        ("args", .list [])], rfl, rfl, by intro hh; simp [isCharsNodeL] at hh⟩
    | some args =>
      have hargs : wfOptList args = true := by simpa [wfNode] using h
      obtain ⟨vs, hc, _⟩ := goodListE_ok _ (convertOptList_good p args hargs)
      refine ⟨.dict [("type", .str "SpecialsNode"), ("specials", .str sc),
        ("args", .list vs)], ?_, rfl, ?_⟩
      · simp only [convertNode]
        rw [hc, aux_ok_bind, aux_pure]
      · intro hh; simp [isCharsNodeL] at hh
  | mathNode nodelist =>
    have hns : wfList nodelist = true := by simpa [wfNode] using h
    obtain ⟨vs, hc, _⟩ := goodListE_ok _ (convertList_good p nodelist hns)
    refine ⟨.dict [("type", .str "MathNode"), ("nodelist", .list vs)], ?_, rfl, ?_⟩
    · simp only [convertNode]
      rw [hc, aux_ok_bind, aux_pure]
    · intro hh; simp [isCharsNodeL] at hh
  | otherNode typename =>
    exact ⟨.dict [("type", .str ("Unknown;" ++ typename))], rfl, rfl,
      by intro hh; simp [isCharsNodeL] at hh⟩

/-- Witness for `claim_C7_amended` at a Comment node and a Chars node. -/
theorem claim_C7_amended_witness :
    (∃ v, convertNode printableDefault (LatexNode.commentNode "note") = .ok v ∧
      dictKeys v = expectedKeys (LatexNode.commentNode "note") ∧
      (isCharsNodeL (LatexNode.commentNode "note") = true → isStr v = true)) ∧
    (∃ v, convertNode printableDefault (LatexNode.charsNode "T") = .ok v ∧
      dictKeys v = expectedKeys (LatexNode.charsNode "T") ∧
      (isCharsNodeL (LatexNode.charsNode "T") = true → isStr v = true)) :=
  ⟨claim_C7_amended printableDefault (LatexNode.commentNode "note") rfl,
   claim_C7_amended printableDefault (LatexNode.charsNode "T") rfl⟩


end Texlint
